import Mathlib

/-!
Shallow embedding of the SkyGeni sales-intelligence decision engine
(src/decision_engine.py): the deal risk scorer, the risk-tier
classifier, the multi-factor combination analyzer and the win-rate
driver analyzer.  Machine reals are modelled by exact rationals;
Python rounding (round half to even) is modelled by rhe below.
-/

namespace SkyGeni

/-- Round half to even on rationals: the rounding used by the Python
builtin round and by numpy round (the rational model abstracts away
binary floating-point representation noise). -/
def rhe (x : ℚ) : ℤ :=
  if x - ⌊x⌋ < 1/2 then ⌊x⌋
  else if 1/2 < x - ⌊x⌋ then ⌊x⌋ + 1
  else if ⌊x⌋ % 2 = 0 then ⌊x⌋ else ⌊x⌋ + 1

/-- Python round(x, 1) on the rational model. -/
def round1 (x : ℚ) : ℚ := (rhe (10 * x) : ℚ) / 10

/-! ### Deal risk scoring: compute_risk_score in decision_engine.py -/

/-- The five scoring factors of compute_risk_score. -/
inductive Factor
  | industry
  | lead_source
  | cycle_bucket
  | rep
  | deal_stage
  deriving DecidableEq, Repr

/-- The fixed factor weights of compute_risk_score. -/
def weights : Factor → ℚ
  | .industry => 0.15
  | .lead_source => 0.15
  | .cycle_bucket => 0.30
  | .rep => 0.25
  | .deal_stage => 0.15

/-- Iteration order of the weights dict in compute_risk_score. -/
def factorList : List Factor :=
  [.industry, .lead_source, .cycle_bucket, .rep, .deal_stage]

/-- One factor table of historical_rates: a Python dict from category
string to empirical win rate, modelled as an association list. -/
abbrev RateTable := List (String × ℚ)

/-- The component win rate of one factor inside compute_risk_score:
key = deal.get(factor, None); if key and key in table then table[key]
else OVERALL_WR.  A Python string is truthy exactly when nonempty, and
a missing deal attribute (None) is falsy, so both fall back. -/
def componentScore (deal : Factor → Option String)
    (historical_rates : Factor → RateTable) (overall : ℚ) (f : Factor) : ℚ :=
  match deal f with
  | none => overall
  | some key =>
      if key ≠ "" then
        match (historical_rates f).lookup key with
        | some wr => wr
        | none => overall
      else overall

/-- win_prob = sum(component_scores[f] * weights[f] for f in weights). -/
def winProb (component_scores : Factor → ℚ) : ℚ :=
  (factorList.map (fun f => component_scores f * weights f)).sum

/-- The triple returned by compute_risk_score. -/
structure ScoreResult where
  risk_score : ℚ
  win_probability : ℚ
  components : Factor → ℚ

/-- compute_risk_score deal historical_rates OVERALL_WR: risk score,
win probability (both percentages rounded to one decimal) and the
component win rates. -/
def compute_risk_score (deal : Factor → Option String)
    (historical_rates : Factor → RateTable) (overall : ℚ) : ScoreResult :=
  let component_scores := componentScore deal historical_rates overall
  let win_prob := winProb component_scores
  { risk_score := round1 ((1 - win_prob) * 100)
    win_probability := round1 (win_prob * 100)
    components := component_scores }

/-! ### Risk tier classification: the pd.cut call on scored_df -/

/-- The four tier labels. -/
inductive RiskTier
  | low
  | medium
  | high
  | critical
  deriving DecidableEq, Repr

/-- pd.cut(scored_df[risk_score], bins=[0, 50, 55, 60, 100],
labels=[Low Risk, Medium Risk, High Risk, Critical]).  With the pandas
defaults right=True and include_lowest=False the bins are the
right-closed intervals (0, 50], (50, 55], (55, 60], (60, 100]; a value
that falls in no bin (such as 0 itself) becomes NaN, modelled none. -/
def risk_tier (x : ℚ) : Option RiskTier :=
  if 0 < x ∧ x ≤ 50 then some .low
  else if 50 < x ∧ x ≤ 55 then some .medium
  else if 55 < x ∧ x ≤ 60 then some .high
  else if 60 < x ∧ x ≤ 100 then some .critical
  else none

/-! ### The deal records of the prepared dataframe df -/

/-- One row of the prepared dataframe: the categorical columns used by
the driver and combination analyses, the win indicator
won = (outcome == Won) and the deal amount.  The derived bucket
columns are carried as category strings. -/
structure Deal where
  industry : String
  region : String
  product_type : String
  lead_source : String
  deal_stage : String
  sales_rep_id : String
  cycle_bucket : String
  size_bucket : String
  won : Bool
  deal_amount : ℚ
  deriving DecidableEq, Repr

/-- OVERALL_WR = df[won].mean(). -/
def OVERALL_WR (df : List Deal) : ℚ :=
  ((df.filter (fun d => d.won)).length : ℚ) / (df.length : ℚ)

/-! ### Combination analyzer: the combos pipeline -/

/-- The groupby key (industry, lead_source, cycle_bucket). -/
def comboKey (d : Deal) : String × String × String :=
  (d.industry, d.lead_source, d.cycle_bucket)

/-- Lexicographic order on groupby keys: pandas groupby returns the
groups with their keys sorted ascending. -/
def keyLt (a b : String × String × String) : Bool :=
  if a.1 < b.1 then true
  else if a.1 = b.1 then
    if a.2.1 < b.2.1 then true
    else if a.2.1 = b.2.1 then decide (a.2.2 < b.2.2)
    else false
  else false

/-- Insert a key into an ascending-sorted key list. -/
def insertKey (k : String × String × String) :
    List (String × String × String) → List (String × String × String)
  | [] => [k]
  | x :: xs => if keyLt k x then k :: x :: xs else x :: insertKey k xs

/-- The distinct groupby keys of the dataframe, sorted ascending as
pandas groupby yields them. -/
def sortedKeys (df : List Deal) : List (String × String × String) :=
  (df.map comboKey).foldl
    (fun acc k => if k ∈ acc then acc else insertKey k acc) []

/-- One aggregated row of the combos frame: win_rate = mean of won,
deals = count, avg_amount = mean of deal_amount; lift is attached
later, as in the source. -/
structure ComboRow where
  industry : String
  lead_source : String
  cycle_bucket : String
  win_rate : ℚ
  deals : ℕ
  avg_amount : ℚ
  lift : ℚ
  deriving DecidableEq, Repr

/-- The groupby aggregation for one key. -/
def aggRow (df : List Deal) (k : String × String × String) : ComboRow :=
  let g := df.filter (fun d => comboKey d = k)
  { industry := k.1
    lead_source := k.2.1
    cycle_bucket := k.2.2
    win_rate := ((g.filter (fun d => d.won)).length : ℚ) / (g.length : ℚ)
    deals := g.length
    avg_amount := (g.map Deal.deal_amount).sum / (g.length : ℚ)
    lift := 0 }

/-- Stable insertion of a row into a list sorted descending by
win_rate: models that sort_values is passed the single column
win_rate with ascending=False and no tie-break columns, so ties stay
in the incoming (grouped-key) order. -/
def insertByWinRate (r : ComboRow) : List ComboRow → List ComboRow
  | [] => [r]
  | x :: xs =>
      if x.win_rate ≤ r.win_rate then r :: x :: xs
      else x :: insertByWinRate r xs

/-- combos.sort_values(win_rate, ascending=False) as a stable sort on
the one column win_rate. -/
def sortByWinRate : List ComboRow → List ComboRow
  | [] => []
  | r :: rs => insertByWinRate r (sortByWinRate rs)

/-- The combos pipeline: groupby aggregation, filter deals >= 30,
lift = round(((win_rate - OVERALL_WR) / OVERALL_WR) * 100, 1), then
sort descending by win_rate. -/
def combos (df : List Deal) (overall : ℚ) : List ComboRow :=
  let agg := (sortedKeys df).map (aggRow df)
  let filtered := agg.filter (fun r => 30 ≤ r.deals)
  let lifted := filtered.map
    (fun r => { r with lift := round1 ((r.win_rate - overall) / overall * 100) })
  sortByWinRate lifted

/-! ### Driver analyzer: the chi-square loop over the factors dict -/

/-- The factors dict of the driver loop, in insertion order. -/
def driverFactors : List (String × (Deal → String)) :=
  [("industry", Deal.industry),
   ("region", Deal.region),
   ("product_type", Deal.product_type),
   ("lead_source", Deal.lead_source),
   ("deal_stage", Deal.deal_stage),
   ("cycle_bucket", Deal.cycle_bucket),
   ("size_bucket", Deal.size_bucket)]

/-- Insert a string into an ascending-sorted list. -/
def insertStr (v : String) : List String → List String
  | [] => [v]
  | x :: xs => if v < x then v :: x :: xs else x :: insertStr v xs

/-- Distinct values of a column, sorted ascending (crosstab row
order). -/
def sortedValues (df : List Deal) (col : Deal → String) : List String :=
  (df.map col).foldl
    (fun acc v => if v ∈ acc then acc else insertStr v acc) []

/-- pd.crosstab(df[col], df[outcome]): rows are the distinct column
values sorted ascending, columns are the outcomes observed in the
data, sorted ascending (Lost before Won); cells are counts.  Only
observed values appear, so every row and column sum is positive on a
nonempty frame. -/
def crosstab (df : List Deal) (col : Deal → String) : List (List ℕ) :=
  let vals := sortedValues df col
  let hasLost := df.any (fun d => !d.won)
  let hasWon := df.any (fun d => d.won)
  vals.map (fun v =>
    let g := df.filter (fun d => col d = v)
    (if hasLost then [(g.filter (fun d => !d.won)).length] else []) ++
    (if hasWon then [(g.filter (fun d => d.won)).length] else []))

/-- Number of columns of a contingency table. -/
def ncols (t : List (List ℕ)) : ℕ := (t.headD []).length

/-- Grand total of a contingency table. -/
def grandTotal (t : List (List ℕ)) : ℕ := (t.map List.sum).sum

/-- Expected frequencies of a contingency table:
e(i, j) = rowsum(i) * colsum(j) / n. -/
def expectedTable (t : List (List ℕ)) : List (List ℚ) :=
  let n : ℚ := (grandTotal t : ℚ)
  let cs : List ℕ := t.transpose.map List.sum
  t.map (fun row =>
    cs.map (fun c => (row.sum : ℚ) * (c : ℚ) / n))

/-- Yates continuity correction on one cell:
o + 0.5 * sign(e - o). -/
def yates (o e : ℚ) : ℚ :=
  o + (1/2) * (if o < e then 1 else if e < o then -1 else 0)

/-- Pearson statistic: sum over cells of (o - e)^2 / e. -/
def pearsonStat (obs expd : List (List ℚ)) : ℚ :=
  ((obs.zip expd).map (fun p =>
    ((p.1.zip p.2).map (fun q => (q.1 - q.2) ^ 2 / q.2)).sum)).sum

/-- The result triple of the chi-square test that the driver loop
uses: statistic, p-value, degrees of freedom. -/
structure Chi2Result where
  chi2 : ℚ
  p_value : ℚ
  dof : ℕ
  deriving DecidableEq, Repr

/-- Modelled from the spec: scipy stats.chi2_contingency (an external
library call, with its default correction=True) as its documentation
describes it.  It fails when some expected frequency is zero; when
dof = (rows - 1)(cols - 1) = 0 it returns the degenerate result
chi2 = 0, p = 1; it applies the Yates continuity correction exactly
when dof = 1.  The chi-square survival function that turns the
statistic into a p-value is transcendental, so it is an explicit
parameter pval of the embedding. -/
def chi2_contingency (pval : ℚ → ℕ → ℚ) (t : List (List ℕ)) :
    Except String Chi2Result :=
  let expd := expectedTable t
  if expd.any (fun row => row.any (fun e => e = 0)) then
    .error "The internally computed table of expected frequencies has a zero element."
  else
    let dof := (t.length - 1) * (ncols t - 1)
    if dof = 0 then .ok { chi2 := 0, p_value := 1, dof := 0 }
    else
      let obs : List (List ℚ) := t.map (fun row => row.map (fun o => (o : ℚ)))
      let obs2 := if dof = 1 then
          (obs.zip expd).map (fun p => (p.1.zip p.2).map (fun q => yates q.1 q.2))
        else obs
      let c := pearsonStat obs2 expd
      .ok { chi2 := c, p_value := pval c dof, dof := dof }

/-- One entry appended to driver_results.  Cramers V is
sqrt(chi2 / (n (k - 1))); the square root leaves the rationals, so the
value under the root is recorded instead (for a one-row table numpy
yields nan there, the rational model yields 0; no claim inspects that
case numerically). -/
structure DriverResult where
  factor : String
  chi2 : ℚ
  p_value : ℚ
  cramers_v_sq : ℚ
  significant : Bool
  deriving DecidableEq, Repr

/-- One iteration of the driver loop: crosstab, chi-square test,
effect size, significance flag at the fixed threshold p < 0.05. -/
def driverStep (pval : ℚ → ℕ → ℚ) (df : List Deal)
    (lf : String × (Deal → String)) : Except String DriverResult :=
  let ct := crosstab df lf.2
  match chi2_contingency pval ct with
  | .error e => .error e
  | .ok r =>
      .ok { factor := lf.1
            chi2 := r.chi2
            p_value := r.p_value
            cramers_v_sq := r.chi2 / ((grandTotal ct : ℚ) * ((min ct.length (ncols ct) : ℚ) - 1))
            significant := decide (r.p_value < 0.05) }

/-- The driver loop body over a list of factors: every factor is
processed and appended; an exception from the chi-square test would
abort the whole loop (there is no try/except around it in the
source). -/
def driverLoop (pval : ℚ → ℕ → ℚ) (df : List Deal) :
    List (String × (Deal → String)) → Except String (List DriverResult)
  | [] => Except.ok []
  | lf :: rest =>
      match driverStep pval df lf with
      | Except.error e => Except.error e
      | Except.ok r =>
          match driverLoop pval df rest with
          | Except.error e => Except.error e
          | Except.ok rs => Except.ok (r :: rs)

/-- driver_results: the loop run over the factors dict. -/
def driver_results (pval : ℚ → ℕ → ℚ) (df : List Deal) :
    Except String (List DriverResult) :=
  driverLoop pval df driverFactors

/-- Stable insertion into a list sorted ascending by p_value. -/
def insertByPValue (r : DriverResult) : List DriverResult → List DriverResult
  | [] => [r]
  | x :: xs =>
      if r.p_value ≤ x.p_value then r :: x :: xs
      else x :: insertByPValue r xs

/-- driver_df = DataFrame(driver_results).sort_values(p_value): the
ranked driver output, modelled as a stable sort ascending by
p_value. -/
def sortByPValue : List DriverResult → List DriverResult
  | [] => []
  | r :: rs => insertByPValue r (sortByPValue rs)

/-- The ranked driver table. -/
def driver_df (pval : ℚ → ℕ → ℚ) (df : List Deal) :
    Except String (List DriverResult) :=
  (driver_results pval df).map sortByPValue

/-- The risk score as a function of the component win rates alone:
the tail of compute_risk_score after the lookup loop. -/
def riskOfComponents (component_scores : Factor → ℚ) : ℚ :=
  round1 ((1 - winProb component_scores) * 100)

/-! ### Concrete data used in examples, witnesses and counterexamples -/

/-- The deal of the end-to-end scenario of the spec. -/
def deal6 : Factor → Option String
  | .industry => some "SaaS"
  | .lead_source => some "Partner"
  | .cycle_bucket => some "Very Long (90-120d)"
  | .rep => some "rep_9"
  | .deal_stage => some "Proposal"

/-- Rate tables of the end-to-end scenario. -/
def rates6 : Factor → RateTable
  | .industry => [("SaaS", 1/2)]
  | .lead_source => [("Partner", 3/10)]
  | .cycle_bucket => [("Very Long (90-120d)", 1/5)]
  | .rep => [("rep_9", 1/4)]
  | .deal_stage => [("Proposal", 7/20)]

/-- A deal whose every attribute is an unseen category. -/
def deal3 : Factor → Option String := fun _ => some "unseen_value"

/-- A deal whose every attribute is the empty (falsy) string. -/
def deal10 : Factor → Option String := fun _ => some ""

/-- Rate tables that do contain the empty string as a key. -/
def rates10 : Factor → RateTable := fun _ => [("", 9/10)]

/-- Component win rates all one half. -/
def comp4 : Factor → ℚ := fun _ => 1/2

/-- The same component win rates with the rep component lowered. -/
def comp4b : Factor → ℚ := fun f => if f = Factor.rep then 1/4 else 1/2

/-- A deal record template for the small concrete dataframes. -/
def mkDealC (ind ls cb : String) (w : Bool) : Deal :=
  { industry := ind
    region := "NA"
    product_type := "core"
    lead_source := ls
    deal_stage := "Proposal"
    sales_rep_id := "rep_1"
    cycle_bucket := cb
    size_bucket := "Mid"
    won := w
    deal_amount := 10 }

/-- Thirty won deals forming one combination group. -/
def df7 : List Deal :=
  List.replicate 30 (mkDealC "Ecommerce" "Outbound" "Fast (0-30d)" true)

/-- The single combos row of df7 at overall rate one half. -/
def row7 : ComboRow :=
  { industry := "Ecommerce"
    lead_source := "Outbound"
    cycle_bucket := "Fast (0-30d)"
    win_rate := 1
    deals := 30
    avg_amount := 10
    lift := 100 }

/-- Two combination groups with equal win rates and different sizes:
30 EdTech deals and 32 SaaS deals, each half won. -/
def df8 : List Deal :=
  List.replicate 15 (mkDealC "EdTech" "Inbound" "Fast (0-30d)" true) ++
  List.replicate 15 (mkDealC "EdTech" "Inbound" "Fast (0-30d)" false) ++
  List.replicate 16 (mkDealC "SaaS" "Inbound" "Fast (0-30d)" true) ++
  List.replicate 16 (mkDealC "SaaS" "Inbound" "Fast (0-30d)" false)

/-- A two-deal dataframe in which every factor column has exactly one
distinct value (one deal won, one lost). -/
def df9 : List Deal :=
  [mkDealC "SaaS" "Inbound" "Fast (0-30d)" true,
   mkDealC "SaaS" "Inbound" "Fast (0-30d)" false]

/-- The degenerate driver result a single-valued factor receives. -/
def res9entry (name : String) : DriverResult :=
  { factor := name
    chi2 := 0
    p_value := 1
    cramers_v_sq := 0
    significant := false }

/-- The full driver output on df9: all seven factors, none excluded. -/
def res9 : List DriverResult :=
  ["industry", "region", "product_type", "lead_source", "deal_stage",
   "cycle_bucket", "size_bucket"].map res9entry


/-! ## Theorems -/

/-! ### Rounding lemmas -/

theorem rhe_le (x : ℚ) : (rhe x : ℚ) ≤ x + 1/2 := by
  have h0 : (⌊x⌋ : ℚ) ≤ x := Int.floor_le x
  unfold rhe
  split_ifs with h1 h2 h3 <;> push_cast <;> linarith

theorem rhe_ge (x : ℚ) : x - 1/2 ≤ (rhe x : ℚ) := by
  have h0 : x < ⌊x⌋ + 1 := Int.lt_floor_add_one x
  unfold rhe
  split_ifs with h1 h2 h3 <;> push_cast <;> linarith

theorem floor_le_rhe (x : ℚ) : ⌊x⌋ ≤ rhe x := by
  unfold rhe
  split_ifs <;> omega

theorem rhe_le_floor_add_one (x : ℚ) : rhe x ≤ ⌊x⌋ + 1 := by
  unfold rhe
  split_ifs <;> omega

theorem rhe_mono {x y : ℚ} (h : x ≤ y) : rhe x ≤ rhe y := by
  have hf : ⌊x⌋ ≤ ⌊y⌋ := Int.floor_le_floor h
  rcases lt_or_eq_of_le hf with hlt | heq
  · have h1 := rhe_le_floor_add_one x
    have h2 := floor_le_rhe y
    omega
  · unfold rhe
    rw [heq]
    have hxy : x - (⌊y⌋ : ℚ) ≤ y - (⌊y⌋ : ℚ) := by linarith
    split_ifs
    all_goals first
      | omega
      | (exfalso; linarith)

theorem rhe_even_sub (n : ℤ) (hn : n % 2 = 0) (x : ℚ) :
    rhe ((n : ℚ) - x) = n - rhe x := by
  have hfl : (⌊x⌋ : ℚ) ≤ x := Int.floor_le x
  have hfu : x < ⌊x⌋ + 1 := Int.lt_floor_add_one x
  by_cases h0 : x - ⌊x⌋ = 0
  · have hx : x = (⌊x⌋ : ℚ) := by linarith
    have hnx : (n : ℚ) - x = ((n - ⌊x⌋ : ℤ) : ℚ) := by push_cast; linarith
    have hf2 : ⌊(n : ℚ) - x⌋ = n - ⌊x⌋ := by rw [hnx]; exact Int.floor_intCast _
    unfold rhe
    rw [hf2]
    have e1 : (n : ℚ) - x - (n - ⌊x⌋ : ℤ) = 0 := by push_cast; linarith
    rw [e1]
    simp only [h0]
    norm_num
  · have hpos : 0 < x - ⌊x⌋ := lt_of_le_of_ne (by linarith) (Ne.symm h0)
    have hf2 : ⌊(n : ℚ) - x⌋ = n - ⌊x⌋ - 1 := by
      rw [Int.floor_eq_iff]
      constructor
      · push_cast; linarith
      · push_cast; linarith
    unfold rhe
    rw [hf2]
    have e1 : (n : ℚ) - x - ((n - ⌊x⌋ - 1 : ℤ) : ℚ) = 1 - (x - ⌊x⌋) := by
      push_cast; ring
    rw [e1]
    rcases lt_trichotomy (x - ⌊x⌋) (1/2) with hlt | heq | hgt
    · have c1 : ¬ (1 - (x - ⌊x⌋) < 1/2) := by push_neg; linarith
      have c2 : 1/2 < 1 - (x - ⌊x⌋) := by linarith
      simp only [if_pos hlt, if_neg c1, if_pos c2]
      ring
    · have c1 : ¬ (1 - (x - ⌊x⌋) < 1/2) := by push_neg; linarith
      have c2 : ¬ (1/2 < 1 - (x - ⌊x⌋)) := by push_neg; linarith
      have d1 : ¬ (x - ⌊x⌋ < 1/2) := by push_neg; linarith
      have d2 : ¬ (1/2 < x - ⌊x⌋) := by push_neg; linarith
      simp only [if_neg c1, if_neg c2, if_neg d1, if_neg d2]
      by_cases hp : ⌊x⌋ % 2 = 0
      · have hp2 : ¬ ((n - ⌊x⌋ - 1) % 2 = 0) := by omega
        simp only [if_pos hp, if_neg hp2]
        ring
      · have hp2 : (n - ⌊x⌋ - 1) % 2 = 0 := by omega
        simp only [if_pos hp2, if_neg hp]
        ring
    · have c1 : 1 - (x - ⌊x⌋) < 1/2 := by linarith
      have d1 : ¬ (x - ⌊x⌋ < 1/2) := by push_neg; linarith
      have d2 : 1/2 < x - ⌊x⌋ := hgt
      simp only [if_pos c1, if_neg d1, if_pos d2]
      ring

theorem rhe_intCast (n : ℤ) : rhe (n : ℚ) = n := by
  unfold rhe
  rw [Int.floor_intCast]
  simp

theorem round1_mono {x y : ℚ} (h : x ≤ y) : round1 x ≤ round1 y := by
  unfold round1
  have h1 : rhe (10 * x) ≤ rhe (10 * y) := rhe_mono (by linarith)
  have h2 : ((rhe (10 * x) : ℤ) : ℚ) ≤ ((rhe (10 * y) : ℤ) : ℚ) := by
    exact_mod_cast h1
  linarith

theorem round1_zero : round1 0 = 0 := by
  have : (10 : ℚ) * 0 = ((0 : ℤ) : ℚ) := by norm_num
  unfold round1
  rw [this, rhe_intCast]
  norm_num

theorem round1_hundred : round1 100 = 100 := by
  have : (10 : ℚ) * 100 = ((1000 : ℤ) : ℚ) := by norm_num
  unfold round1
  rw [this, rhe_intCast]
  norm_num

theorem round1_range {x : ℚ} (h0 : 0 ≤ x) (h1 : x ≤ 100) :
    0 ≤ round1 x ∧ round1 x ≤ 100 := by
  have lo := round1_mono h0
  have hi := round1_mono h1
  rw [round1_zero] at lo
  rw [round1_hundred] at hi
  exact ⟨lo, hi⟩

/-! ### Lemmas about the risk scorer -/

theorem winProb_eq (c : Factor → ℚ) :
    winProb c = c .industry * 0.15 + c .lead_source * 0.15
      + c .cycle_bucket * 0.30 + c .rep * 0.25 + c .deal_stage * 0.15 := by
  simp [winProb, factorList, weights]
  ring

theorem lookup_mem {l : RateTable} {k : String} {v : ℚ}
    (h : l.lookup k = some v) : ∃ k2, (k2, v) ∈ l := by
  induction l with
  | nil => simp [List.lookup] at h
  | cons p t ih =>
      obtain ⟨k2, v2⟩ := p
      rw [List.lookup] at h
      split at h
      · refine ⟨k2, ?_⟩
        have hv : v2 = v := by injection h
        rw [← hv]
        exact List.mem_cons_self _ _
      · obtain ⟨k3, hm⟩ := ih h
        exact ⟨k3, List.mem_cons_of_mem _ hm⟩

theorem componentScore_bounds (deal : Factor → Option String)
    (rates : Factor → RateTable) (overall : ℚ)
    (hrate : ∀ f, ∀ p ∈ rates f, 0 ≤ p.2 ∧ p.2 ≤ 1)
    (h0 : 0 ≤ overall) (h1 : overall ≤ 1) (f : Factor) :
    0 ≤ componentScore deal rates overall f
      ∧ componentScore deal rates overall f ≤ 1 := by
  cases hd : deal f with
  | none =>
      simp only [componentScore, hd]
      exact ⟨h0, h1⟩
  | some key =>
      simp only [componentScore, hd]
      by_cases hk : key ≠ ""
      · rw [if_pos hk]
        cases hl : (rates f).lookup key with
        | none => exact ⟨h0, h1⟩
        | some wr =>
            obtain ⟨k2, hmem⟩ := lookup_mem hl
            exact hrate f (k2, wr) hmem
      · rw [if_neg hk]
        exact ⟨h0, h1⟩

theorem winProb_bounds (c : Factor → ℚ) (h : ∀ f, 0 ≤ c f ∧ c f ≤ 1) :
    0 ≤ winProb c ∧ winProb c ≤ 1 := by
  rw [winProb_eq]
  obtain ⟨a0, a1⟩ := h .industry
  obtain ⟨b0, b1⟩ := h .lead_source
  obtain ⟨c0, c1⟩ := h .cycle_bucket
  obtain ⟨d0, d1⟩ := h .rep
  obtain ⟨e0, e1⟩ := h .deal_stage
  constructor <;> nlinarith

theorem winProb_le_of_component_le {c c2 : Factor → ℚ} {g : Factor}
    (hle : c2 g ≤ c g) (hother : ∀ f, f ≠ g → c2 f = c f) :
    winProb c2 ≤ winProb c := by
  rw [winProb_eq, winProb_eq]
  cases g with
  | industry =>
      have h1 := hother .lead_source (by simp)
      have h2 := hother .cycle_bucket (by simp)
      have h3 := hother .rep (by simp)
      have h4 := hother .deal_stage (by simp)
      rw [h1, h2, h3, h4]
      nlinarith
  | lead_source =>
      have h1 := hother .industry (by simp)
      have h2 := hother .cycle_bucket (by simp)
      have h3 := hother .rep (by simp)
      have h4 := hother .deal_stage (by simp)
      rw [h1, h2, h3, h4]
      nlinarith
  | cycle_bucket =>
      have h1 := hother .industry (by simp)
      have h2 := hother .lead_source (by simp)
      have h3 := hother .rep (by simp)
      have h4 := hother .deal_stage (by simp)
      rw [h1, h2, h3, h4]
      nlinarith
  | rep =>
      have h1 := hother .industry (by simp)
      have h2 := hother .lead_source (by simp)
      have h3 := hother .cycle_bucket (by simp)
      have h4 := hother .deal_stage (by simp)
      rw [h1, h2, h3, h4]
      nlinarith
  | deal_stage =>
      have h1 := hother .industry (by simp)
      have h2 := hother .lead_source (by simp)
      have h3 := hother .cycle_bucket (by simp)
      have h4 := hother .rep (by simp)
      rw [h1, h2, h3, h4]
      nlinarith


/-! ### Evaluation helpers -/

theorem round1_eval (x : ℚ) (n : ℤ) (h : 10 * x = (n : ℚ)) :
    round1 x = (n : ℚ) / 10 := by
  unfold round1
  rw [h, rhe_intCast]

/-! ### Lemmas about the combination sort -/

theorem mem_insertByWinRate {x r : ComboRow} {l : List ComboRow} :
    x ∈ insertByWinRate r l ↔ x = r ∨ x ∈ l := by
  induction l with
  | nil => simp [insertByWinRate]
  | cons a t ih =>
      simp only [insertByWinRate]
      split_ifs
      · simp [List.mem_cons]
      · simp only [List.mem_cons, ih]
        tauto

theorem mem_sortByWinRate {x : ComboRow} {l : List ComboRow} :
    x ∈ sortByWinRate l ↔ x ∈ l := by
  induction l with
  | nil => simp [sortByWinRate]
  | cons a t ih =>
      simp only [sortByWinRate, mem_insertByWinRate, List.mem_cons, ih]

theorem pairwise_insertByWinRate {r : ComboRow} {l : List ComboRow}
    (h : l.Pairwise (fun a b => b.win_rate ≤ a.win_rate)) :
    (insertByWinRate r l).Pairwise (fun a b => b.win_rate ≤ a.win_rate) := by
  induction l with
  | nil => simp [insertByWinRate]
  | cons a t ih =>
      rcases List.pairwise_cons.mp h with ⟨ha, ht⟩
      simp only [insertByWinRate]
      split_ifs with hc
      · refine List.pairwise_cons.mpr ⟨?_, h⟩
        intro y hy
        rcases List.mem_cons.mp hy with rfl | hyt
        · exact hc
        · exact le_trans (ha y hyt) hc
      · refine List.pairwise_cons.mpr ⟨?_, ih ht⟩
        intro y hy
        rcases mem_insertByWinRate.mp hy with rfl | hyt
        · exact le_of_lt (not_le.mp hc)
        · exact ha y hyt

theorem sortByWinRate_pairwise (l : List ComboRow) :
    (sortByWinRate l).Pairwise (fun a b => b.win_rate ≤ a.win_rate) := by
  induction l with
  | nil => simp [sortByWinRate]
  | cons a t ih => exact pairwise_insertByWinRate ih

/-! ### Lemmas about the driver loop -/

theorem driverStep_factor {pval : ℚ → ℕ → ℚ} {df : List Deal}
    {lf : String × (Deal → String)} {r : DriverResult}
    (h : driverStep pval df lf = Except.ok r) : r.factor = lf.1 := by
  simp only [driverStep] at h
  cases hc : chi2_contingency pval (crosstab df lf.2) with
  | error e =>
      rw [hc] at h
      cases h
  | ok c =>
      rw [hc] at h
      injection h with h2
      rw [← h2]

theorem driverLoop_factors {pval : ℚ → ℕ → ℚ} {df : List Deal} :
    ∀ (l : List (String × (Deal → String))) (rs : List DriverResult),
      driverLoop pval df l = Except.ok rs →
      rs.map (fun r => r.factor) = l.map Prod.fst := by
  intro l
  induction l with
  | nil =>
      intro rs h
      simp only [driverLoop] at h
      injection h with h2
      rw [← h2]
      rfl
  | cons lf rest ih =>
      intro rs h
      simp only [driverLoop] at h
      cases hs : driverStep pval df lf with
      | error e =>
          rw [hs] at h
          cases h
      | ok r =>
          rw [hs] at h
          cases hl : driverLoop pval df rest with
          | error e =>
              rw [hl] at h
              cases h
          | ok rs2 =>
              rw [hl] at h
              injection h with h2
              rw [← h2, List.map_cons, List.map_cons, driverStep_factor hs, ih rs2 hl]

/-! ### Concrete evaluations used by witnesses and counterexamples -/

theorem combos_df7_eval : combos df7 (1/2) = [row7] := by
  simp +decide [combos, sortedKeys, df7, mkDealC, comboKey, insertKey, keyLt, aggRow,
    sortByWinRate, insertByWinRate, row7, List.replicate]
  norm_num [round1_hundred]

theorem driver_results_df9_eval :
    driver_results (fun _ _ => 1) df9 = Except.ok res9 := by
  simp +decide [driver_results, driverLoop, driverFactors, driverStep, chi2_contingency,
    crosstab, sortedValues, insertStr, df9, mkDealC, expectedTable, grandTotal, ncols,
    res9, res9entry, List.transpose]
  norm_num

/-! ### The claims -/

/-- Claim C1: for every deal and every set of rate tables whose
entries lie in [0, 1] (with the overall win rate, itself the mean of a
0/1 indicator, in [0, 1]), compute_risk_score returns
risk score = round((1 - win probability) * 100, 1) and win probability
round(win probability * 100, 1), and the risk score lies in
[0, 100]. -/
theorem C1_risk_score_formula_and_range
    (deal : Factor → Option String) (rates : Factor → RateTable) (overall : ℚ)
    (hrate : ∀ f, ∀ p ∈ rates f, 0 ≤ p.2 ∧ p.2 ≤ 1)
    (hov0 : 0 ≤ overall) (hov1 : overall ≤ 1) :
    (compute_risk_score deal rates overall).risk_score
      = round1 ((1 - winProb (componentScore deal rates overall)) * 100)
    ∧ (compute_risk_score deal rates overall).win_probability
      = round1 (winProb (componentScore deal rates overall) * 100)
    ∧ 0 ≤ (compute_risk_score deal rates overall).risk_score
    ∧ (compute_risk_score deal rates overall).risk_score ≤ 100 := by
  have hb := winProb_bounds (componentScore deal rates overall)
    (fun f => componentScore_bounds deal rates overall hrate hov0 hov1 f)
  have harg0 : 0 ≤ (1 - winProb (componentScore deal rates overall)) * 100 := by
    nlinarith [hb.1, hb.2]
  have harg1 : (1 - winProb (componentScore deal rates overall)) * 100 ≤ 100 := by
    nlinarith [hb.1, hb.2]
  have hr := round1_range harg0 harg1
  exact ⟨rfl, rfl, hr.1, hr.2⟩

/-- Witness for C1 at the concrete end-to-end data. -/
theorem C1_witness :
    0 ≤ (compute_risk_score deal6 rates6 (2/5)).risk_score
    ∧ (compute_risk_score deal6 rates6 (2/5)).risk_score ≤ 100 :=
  have h := C1_risk_score_formula_and_range deal6 rates6 (2/5)
    (by intro f p hp
        cases f <;> simp [rates6] at hp <;> (try subst hp) <;> norm_num)
    (by norm_num) (by norm_num)
  ⟨h.2.2.1, h.2.2.2⟩

/-- Claim C2 counterexample: pd.cut keeps its default right=True, so
the bins are right-closed: the score 50 classifies as Low Risk, not
Medium Risk as the claimed [50, 55) bin demands, and the score 0 is
left unclassified, refuting totality on [0, 100]. -/
theorem C2_counterexample :
    risk_tier 50 = some RiskTier.low ∧ risk_tier 0 = none := by
  norm_num [risk_tier]

/-- Claim C2 amended: the classifier is total on (0, 100] with bins
exclusive on the lower edge and inclusive on the upper edge:
(0, 50] Low, (50, 55] Medium, (55, 60] High, (60, 100] Critical;
the score 0 itself is unclassified. -/
theorem C2_tier_bins_amended (x : ℚ) (h0 : 0 < x) (h100 : x ≤ 100) :
    (risk_tier x = some RiskTier.low ↔ x ≤ 50)
    ∧ (risk_tier x = some RiskTier.medium ↔ 50 < x ∧ x ≤ 55)
    ∧ (risk_tier x = some RiskTier.high ↔ 55 < x ∧ x ≤ 60)
    ∧ (risk_tier x = some RiskTier.critical ↔ 60 < x) := by
  unfold risk_tier
  split_ifs with h1 h2 h3 h4 <;>
    refine ⟨⟨fun hh => ?_, fun hh => ?_⟩, ⟨fun hh => ?_, fun hh => ?_⟩,
      ⟨fun hh => ?_, fun hh => ?_⟩, ⟨fun hh => ?_, fun hh => ?_⟩⟩ <;>
    simp_all <;>
    (try push_neg at *) <;>
    first
      | rfl
      | linarith

/-- Witness for C2 at the concrete score 42. -/
theorem C2_witness :
    (0 : ℚ) < 42 ∧ (42 : ℚ) ≤ 100 ∧ risk_tier 42 = some RiskTier.low :=
  ⟨by norm_num, by norm_num,
   (C2_tier_bins_amended 42 (by norm_num) (by norm_num)).1.mpr (by norm_num)⟩

/-- Claim C3: a deal category absent from the factor rate table makes
the component win rate fall back to the overall win rate, exactly and
without an error. -/
theorem C3_unseen_category_fallback (deal : Factor → Option String)
    (rates : Factor → RateTable) (overall : ℚ) (f : Factor) (k : String)
    (hk : deal f = some k) (habsent : (rates f).lookup k = none) :
    (compute_risk_score deal rates overall).components f = overall := by
  show componentScore deal rates overall f = overall
  simp only [componentScore, hk]
  by_cases hke : k ≠ ""
  · rw [if_pos hke, habsent]
  · rw [if_neg hke]

/-- Witness for C3: a wholly unseen category value. -/
theorem C3_witness :
    (compute_risk_score deal3 rates6 (2/5)).components Factor.rep = 2/5 :=
  C3_unseen_category_fallback deal3 rates6 (2/5) Factor.rep "unseen_value" rfl
    (by simp [rates6, List.lookup])

/-- Claim C4: the weights are nonnegative and sum to one, and
decreasing one component win rate while fixing the others never
decreases the risk score. -/
theorem C4_weights_and_monotonicity (c c2 : Factor → ℚ) (g : Factor)
    (hle : c2 g ≤ c g) (hother : ∀ f, f ≠ g → c2 f = c f) :
    (∀ f, 0 ≤ weights f)
    ∧ (factorList.map weights).sum = 1
    ∧ riskOfComponents c ≤ riskOfComponents c2 := by
  refine ⟨?_, ?_, ?_⟩
  · intro f
    cases f <;> norm_num [weights]
  · simp [factorList, weights]
    norm_num
  · unfold riskOfComponents
    have hw := winProb_le_of_component_le hle hother
    exact round1_mono (by linarith)

/-- Witness for C4: lowering the rep component from one half to one
quarter. -/
theorem C4_witness : riskOfComponents comp4 ≤ riskOfComponents comp4b :=
  (C4_weights_and_monotonicity comp4 comp4b Factor.rep
    (by norm_num [comp4, comp4b])
    (by intro f hf
        cases f
        case rep => exact absurd rfl hf
        all_goals simp +decide [comp4, comp4b])).2.2

/-- Claim C5: the returned risk score and win probability percentages
always sum to 100 - exactly, in the rational model, because round half
to even sends x and 1000 - x to values summing to 1000. -/
theorem C5_risk_plus_winprob_eq_100 (deal : Factor → Option String)
    (rates : Factor → RateTable) (overall : ℚ) :
    (compute_risk_score deal rates overall).risk_score
      + (compute_risk_score deal rates overall).win_probability = 100 := by
  show round1 ((1 - winProb (componentScore deal rates overall)) * 100)
      + round1 (winProb (componentScore deal rates overall) * 100) = 100
  set p := winProb (componentScore deal rates overall) with hp
  unfold round1
  have he : (10 : ℚ) * ((1 - p) * 100) = ((1000 : ℤ) : ℚ) - 10 * (p * 100) := by
    push_cast
    ring
  rw [he, rhe_even_sub 1000 (by norm_num) (10 * (p * 100))]
  push_cast
  ring

/-- Claim C6: the end-to-end scenario: component rates 0.50, 0.30,
0.20, 0.25, 0.35 give win probability 0.295, reported 29.5 percent,
risk score 70.5 and tier Critical. -/
theorem C6_end_to_end_scenario :
    winProb (componentScore deal6 rates6 (2/5)) = 0.295
    ∧ (compute_risk_score deal6 rates6 (2/5)).win_probability = 29.5
    ∧ (compute_risk_score deal6 rates6 (2/5)).risk_score = 70.5
    ∧ risk_tier (compute_risk_score deal6 rates6 (2/5)).risk_score
        = some RiskTier.critical := by
  have hp : winProb (componentScore deal6 rates6 (2/5)) = 59 / 200 := by
    simp +decide [winProb, factorList, weights, componentScore, deal6, rates6,
      List.lookup]
    norm_num
  have hw : (compute_risk_score deal6 rates6 (2/5)).win_probability = 29.5 := by
    show round1 (winProb (componentScore deal6 rates6 (2/5)) * 100) = 29.5
    rw [hp, round1_eval _ 295 (by norm_num)]
    norm_num
  have hr : (compute_risk_score deal6 rates6 (2/5)).risk_score = 70.5 := by
    show round1 ((1 - winProb (componentScore deal6 rates6 (2/5))) * 100) = 70.5
    rw [hp, round1_eval _ 705 (by norm_num)]
    norm_num
  refine ⟨by rw [hp]; norm_num, hw, hr, ?_⟩
  rw [hr]
  norm_num [risk_tier]

/-- Claim C7: every row of the combos output keeps at least 30
underlying deals. -/
theorem C7_min_support_30 (df : List Deal) (overall : ℚ) (r : ComboRow)
    (h : r ∈ combos df overall) : 30 ≤ r.deals := by
  simp only [combos] at h
  rw [mem_sortByWinRate] at h
  rcases List.mem_map.mp h with ⟨s, hs, hr⟩
  rcases List.mem_filter.mp hs with ⟨hmem, hdec⟩
  have h30 : 30 ≤ s.deals := of_decide_eq_true hdec
  rw [← hr]
  exact h30

/-- Witness for C7: a thirty-deal group. -/
theorem C7_witness : row7 ∈ combos df7 (1/2) ∧ 30 ≤ row7.deals :=
  have hmem : row7 ∈ combos df7 (1/2) := by
    rw [combos_df7_eval]
    exact List.mem_singleton.mpr rfl
  ⟨hmem, C7_min_support_30 df7 (1/2) row7 hmem⟩

set_option maxRecDepth 20000 in
/-- Claim C8 counterexample: two groups tie at win rate one half, yet
the output orders them with deal counts 30 before 32 - ties are not
broken by descending deal count; sort_values gets only the win_rate
column and no tie-break keys. -/
theorem C8_counterexample :
    (combos df8 (1/2)).map (fun r => r.win_rate) = [1/2, 1/2]
    ∧ (combos df8 (1/2)).map (fun r => r.deals) = [30, 32] := by
  simp +decide [combos, sortedKeys, df8, mkDealC, comboKey, insertKey, keyLt, aggRow,
    sortByWinRate, insertByWinRate, List.replicate]
  norm_num

/-- Claim C8 amended: the combos output is sorted descending by win
rate; equal win rates are left in the grouped key order rather than
reordered by deal count or key. -/
theorem C8_sorted_by_win_rate_amended (df : List Deal) (overall : ℚ) :
    (combos df overall).Pairwise (fun a b => b.win_rate ≤ a.win_rate) := by
  simp only [combos]
  exact sortByWinRate_pairwise _

/-- Claim C9 counterexample: on a dataframe whose every factor column
holds a single distinct value, the driver loop reports no
insufficiency and excludes nothing: all seven factors appear in
driver_results and in the ranked driver_df, each with the degenerate
library result chi2 = 0, p = 1, significant = false. -/
theorem C9_counterexample :
    driver_results (fun _ _ => 1) df9 = Except.ok res9
    ∧ driver_df (fun _ _ => 1) df9 = Except.ok res9
    ∧ res9.map (fun r => r.factor) = driverFactors.map Prod.fst := by
  refine ⟨driver_results_df9_eval, ?_, by simp [res9, res9entry, driverFactors]⟩
  unfold driver_df
  rw [driver_results_df9_eval]
  simp [Except.map, sortByPValue, insertByPValue, res9, res9entry]

/-- Claim C9 amended: the driver loop has no insufficient-data path:
whenever it returns, its output carries one entry per factor of the
factors dict, in order - no factor is ever excluded. -/
theorem C9_no_exclusion_amended (pval : ℚ → ℕ → ℚ) (df : List Deal)
    (rs : List DriverResult) (h : driver_results pval df = Except.ok rs) :
    rs.map (fun r => r.factor) = driverFactors.map Prod.fst :=
  driverLoop_factors driverFactors rs h

/-- Witness for C9 at the single-valued dataframe. -/
theorem C9_witness :
    res9.map (fun r => r.factor) = driverFactors.map Prod.fst :=
  C9_no_exclusion_amended (fun _ _ => 1) df9 res9 driver_results_df9_eval

/-- Claim C10: a falsy attribute value - the empty string or a missing
value - short-circuits the membership test, so the component falls
back to the overall rate even when the empty string is a key of the
rate table. -/
theorem C10_falsy_key_fallback (deal : Factor → Option String)
    (rates : Factor → RateTable) (overall : ℚ) (f : Factor)
    (hk : deal f = some "" ∨ deal f = none) :
    (compute_risk_score deal rates overall).components f = overall := by
  show componentScore deal rates overall f = overall
  rcases hk with hk | hk
  · simp only [componentScore, hk]
    rw [if_neg (by simp)]
  · simp only [componentScore, hk]

/-- Witness for C10: the empty string is present in the table with
rate nine tenths, yet the component score is the overall two
fifths. -/
theorem C10_witness :
    (rates10 Factor.rep).lookup "" = some (9/10)
    ∧ (compute_risk_score deal10 rates10 (2/5)).components Factor.rep = 2/5 :=
  ⟨by simp [rates10, List.lookup],
   C10_falsy_key_fallback deal10 rates10 (2/5) Factor.rep (Or.inl rfl)⟩

end SkyGeni
